import Mathlib

/-!
Shallow embedding of the Synacor challenge virtual machine from
`src/vm.rs` and the program loader from `src/main.rs`.

Modelling conventions:
* Machine words live in `Nat`.  The Rust code stores every cell in a
  64-bit `usize`; all arithmetic the VM performs stays far below
  `2 ^ 64` (memory words are at most `65535`, register contents are
  produced by `modulo`, pointers are jump targets below `32768` plus
  small increments), so plain `Nat` arithmetic agrees with `usize`
  arithmetic on every reachable value.  The one genuinely 64-bit
  operation, the bitwise complement `!a` used by the `not` opcode, is
  modelled explicitly as `usize_not` below.
* Every Rust panic or unwrap failure in the source becomes an
  `Except.error` carrying a `VMErr` describing which failure fired.
  Sequencing of fallible Rust statements (where an early panic aborts
  the rest) is `Except.bind`.
* The Rust `run` is an unbounded `while` loop; here it is indexed by
  fuel, with a dedicated `outOfFuel` error when the fuel runs out, so
  that statements about finitely many iterations are exact.
* The `in` opcode refills its buffer from stdin when the buffer is
  empty.  External input is modelled by the pre-filled `input_buffer`
  field; hitting the opcode with an empty buffer is the boundary where
  the run depends on the outside world and is reported as `noInput`.
  The Rust code keeps the buffer as a `Vec` in reversed order and pops
  from its end; the model keeps the pending codes in dequeue order,
  head first, which is the same data.
* The Rust stack is a `Vec` pushed and popped at its end; the model
  uses a `List` pushed and popped at its head, the same LIFO.
-/

namespace Synacor

/-- Failure modes of the interpreter.  Each constructor corresponds to
one Rust panic or unwrap site in the source, except
`outOfFuel` which signals exhaustion of the fuel given to `run`. -/
inductive VMErr where
  | halt
  | unimplemented (op : Nat)
  | stackUnderflow
  | indexOutOfBounds (addr : Nat)
  | illegalValue (value addr : Nat)
  | expectedRegister
  | divByZero
  | invalidChar (code : Nat)
  | noInput
  | outOfFuel
  deriving DecidableEq

/-- The enum `Value` of `vm.rs`: a decoded operand word. -/
inductive Value where
  | Number (n : Nat)
  | Register (r : Nat)
  deriving DecidableEq

/-- The struct `VM` of `vm.rs`. -/
structure VM where
  memory : List Nat
  registers : List Nat
  stack : List Nat
  pointer : Nat
  input_buffer : List Nat
  deriving DecidableEq

/-- Function `modulo` of `vm.rs`: reduction into the 15-bit value range. -/
def modulo (number : Nat) : Nat := number % 32768

/-- Rust `!a` on a 64-bit `usize`: flipping all 64 bits of `a < 2 ^ 64`
yields exactly `2 ^ 64 - 1 - a` (the complement and `a` sum to the
all-ones word). -/
def usize_not (a : Nat) : Nat := 2 ^ 64 - 1 - a

/-- Indexing `self.memory[addr]`: a Rust `Vec` index panics when the
address is at or past the end of the vector. -/
def memRead (m : List Nat) (addr : Nat) : Except VMErr Nat :=
  match m[addr]? with
  | some v => .ok v
  | none => .error (.indexOutOfBounds addr)

/-- Assigning `self.memory[addr] = v`, again panicking out of bounds. -/
def memWrite (m : List Nat) (addr v : Nat) : Except VMErr (List Nat) :=
  if addr < m.length then .ok (m.set addr v) else .error (.indexOutOfBounds addr)

/-- Constructor `VM::boot`. -/
def boot : VM :=
  { memory := []
    registers := [0, 0, 0, 0, 0, 0, 0, 0]
    stack := []
    pointer := 0
    input_buffer := [] }

/-- Method `VM::load_program`. -/
def VM.load_program (s : VM) (program : List Nat) : VM :=
  { s with memory := program }

/-- Method `VM::get_value`: classify the word stored at `pointer`.
Words below `32768` are literals, words in `[32768, 32776)` are
register references (the register index is `modulo value`), anything
larger is illegal. -/
def VM.get_value (s : VM) (pointer : Nat) : Except VMErr Value :=
  Except.bind (memRead s.memory pointer) fun value =>
  if value < 32768 then .ok (Value.Number value)
  else if value < 32776 then .ok (Value.Register (modulo value))
  else .error (.illegalValue value pointer)

/-- Method `VM::read_value`: resolve the operand at `pointer`,
dereferencing register references through the register file.  The
register index is always below 8 by construction of `get_value`, so
the `getD` default is never used on reachable states. -/
def VM.read_value (s : VM) (pointer : Nat) : Except VMErr Nat :=
  Except.bind (s.get_value pointer) fun v =>
  match v with
  | Value.Number n => .ok n
  | Value.Register r => .ok (s.registers.getD r 0)

/-- Method `VM::read_value_at_pointer`. -/
def VM.read_value_at_pointer (s : VM) : Except VMErr Nat :=
  s.read_value s.pointer

/-- Method `VM::get_register`: the operand must be a register
reference; a literal is the Rust panic reporting that a register was
expected but a number was found. -/
def VM.get_register (s : VM) (pointer : Nat) : Except VMErr Nat :=
  Except.bind (s.get_value pointer) fun v =>
  match v with
  | Value.Number _ => .error .expectedRegister
  | Value.Register r => .ok r

/-- Method `VM::halt`: the body of the opcode-0 arm is the Rust halt panic. -/
def VM.halt (_ : VM) : Except VMErr VM := .error .halt

/-- Opcode 1, method `VM::set`. -/
def VM.set (s : VM) : Except VMErr VM :=
  Except.bind (s.get_register (s.pointer + 1)) fun reg =>
  Except.bind (s.read_value (s.pointer + 2)) fun value =>
  .ok { s with registers := s.registers.set reg value, pointer := s.pointer + 3 }

/-- Opcode 2, method `VM::push`. -/
def VM.push (s : VM) : Except VMErr VM :=
  Except.bind (s.read_value (s.pointer + 1)) fun value =>
  .ok { s with stack := value :: s.stack, pointer := s.pointer + 2 }

/-- Opcode 3, method `VM::pop`: popping an empty stack panics. -/
def VM.pop (s : VM) : Except VMErr VM :=
  Except.bind (s.get_register (s.pointer + 1)) fun register =>
  match s.stack with
  | [] => .error .stackUnderflow
  | value :: rest =>
    .ok { s with registers := s.registers.set register value
               , stack := rest
               , pointer := s.pointer + 2 }

/-- Opcode 4, method `VM::eq`. -/
def VM.eq (s : VM) : Except VMErr VM :=
  Except.bind (s.get_register (s.pointer + 1)) fun register =>
  Except.bind (s.read_value (s.pointer + 2)) fun a =>
  Except.bind (s.read_value (s.pointer + 3)) fun b =>
  .ok { s with registers := s.registers.set register (if a = b then 1 else 0)
             , pointer := s.pointer + 4 }

/-- Opcode 5, method `VM::gt`. -/
def VM.gt (s : VM) : Except VMErr VM :=
  Except.bind (s.get_register (s.pointer + 1)) fun register =>
  Except.bind (s.read_value (s.pointer + 2)) fun a =>
  Except.bind (s.read_value (s.pointer + 3)) fun b =>
  .ok { s with registers := s.registers.set register (if a > b then 1 else 0)
             , pointer := s.pointer + 4 }

/-- Opcode 6, method `VM::jmp`. -/
def VM.jmp (s : VM) : Except VMErr VM :=
  Except.bind (s.read_value (s.pointer + 1)) fun jump_to =>
  .ok { s with pointer := jump_to }

/-- Opcode 7, method `VM::jt`. -/
def VM.jt (s : VM) : Except VMErr VM :=
  Except.bind (s.read_value (s.pointer + 1)) fun cond =>
  if cond ≠ 0 then
    Except.bind (s.read_value (s.pointer + 2)) fun jump_to =>
    .ok { s with pointer := jump_to }
  else .ok { s with pointer := s.pointer + 3 }

/-- Opcode 8, method `VM::jf`. -/
def VM.jf (s : VM) : Except VMErr VM :=
  Except.bind (s.read_value (s.pointer + 1)) fun cond =>
  if cond = 0 then
    Except.bind (s.read_value (s.pointer + 2)) fun jump_to =>
    .ok { s with pointer := jump_to }
  else .ok { s with pointer := s.pointer + 3 }

/-- Opcode 9, method `VM::add`. -/
def VM.add (s : VM) : Except VMErr VM :=
  Except.bind (s.get_register (s.pointer + 1)) fun register =>
  Except.bind (s.read_value (s.pointer + 2)) fun a =>
  Except.bind (s.read_value (s.pointer + 3)) fun b =>
  .ok { s with registers := s.registers.set register (modulo (a + b))
             , pointer := s.pointer + 4 }

/-- Opcode 10, method `VM::mult`.  The product is computed in full
width before the reduction, exactly as the 64-bit `usize`
multiplication in the source (operand values stay far below `2 ^ 32`,
so the `usize` product never wraps). -/
def VM.mult (s : VM) : Except VMErr VM :=
  Except.bind (s.get_register (s.pointer + 1)) fun register =>
  Except.bind (s.read_value (s.pointer + 2)) fun a =>
  Except.bind (s.read_value (s.pointer + 3)) fun b =>
  .ok { s with registers := s.registers.set register (modulo (a * b))
             , pointer := s.pointer + 4 }

/-- Opcode 11, method `VM::mod`: Rust `a % b` panics when `b = 0`. -/
def VM.mod (s : VM) : Except VMErr VM :=
  Except.bind (s.get_register (s.pointer + 1)) fun register =>
  Except.bind (s.read_value (s.pointer + 2)) fun a =>
  Except.bind (s.read_value (s.pointer + 3)) fun b =>
  if b = 0 then .error .divByZero
  else
    .ok { s with registers := s.registers.set register (a % b)
               , pointer := s.pointer + 4 }

/-- Opcode 12, method `VM::and`. -/
def VM.and (s : VM) : Except VMErr VM :=
  Except.bind (s.get_register (s.pointer + 1)) fun register =>
  Except.bind (s.read_value (s.pointer + 2)) fun a =>
  Except.bind (s.read_value (s.pointer + 3)) fun b =>
  .ok { s with registers := s.registers.set register (modulo (a &&& b))
             , pointer := s.pointer + 4 }

/-- Opcode 13, method `VM::or`. -/
def VM.or (s : VM) : Except VMErr VM :=
  Except.bind (s.get_register (s.pointer + 1)) fun register =>
  Except.bind (s.read_value (s.pointer + 2)) fun a =>
  Except.bind (s.read_value (s.pointer + 3)) fun b =>
  .ok { s with registers := s.registers.set register (modulo (a ||| b))
             , pointer := s.pointer + 4 }

/-- Opcode 14, method `VM::not`: complement in 64-bit width, then
reduce. -/
def VM.not (s : VM) : Except VMErr VM :=
  Except.bind (s.get_register (s.pointer + 1)) fun register =>
  Except.bind (s.read_value (s.pointer + 2)) fun a =>
  .ok { s with registers := s.registers.set register (modulo (usize_not a))
             , pointer := s.pointer + 3 }

/-- Opcode 15, method `VM::rmem`.  Note that the fetched cell is read
with `read_value`, so a stored word in `[32768, 32776)` is
dereferenced through the register file rather than returned raw. -/
def VM.rmem (s : VM) : Except VMErr VM :=
  Except.bind (s.get_register (s.pointer + 1)) fun register =>
  Except.bind (s.read_value (s.pointer + 2)) fun address =>
  Except.bind (s.read_value address) fun value =>
  .ok { s with registers := s.registers.set register value
             , pointer := s.pointer + 3 }

/-- Opcode 16, method `VM::wmem`. -/
def VM.wmem (s : VM) : Except VMErr VM :=
  Except.bind (s.read_value (s.pointer + 1)) fun address =>
  Except.bind (s.read_value (s.pointer + 2)) fun value =>
  Except.bind (memWrite s.memory address value) fun mem =>
  .ok { s with memory := mem, pointer := s.pointer + 3 }

/-- Opcode 17, method `VM::call`. -/
def VM.call (s : VM) : Except VMErr VM :=
  Except.bind (s.read_value (s.pointer + 1)) fun jump_to =>
  .ok { s with stack := (s.pointer + 2) :: s.stack, pointer := jump_to }

/-- Opcode 18, method `VM::ret`: popping an empty stack panics. -/
def VM.ret (s : VM) : Except VMErr VM :=
  match s.stack with
  | [] => .error .stackUnderflow
  | jump_to :: rest => .ok { s with stack := rest, pointer := jump_to }

/-- Opcode 19, method `VM::out`.  The conversion of the code to a
`char` panics for surrogates and for codes above `0x10FFFF` (a code at
or above `2 ^ 32` already fails the earlier conversion to `u32`, and
is also above `0x10FFFF`, so one test covers both unwraps).  The write
to stdout is a side effect outside the state and is not modelled. -/
def VM.out (s : VM) : Except VMErr VM :=
  Except.bind (s.read_value (s.pointer + 1)) fun char_code =>
  if char_code < 55296 ∨ (57344 ≤ char_code ∧ char_code ≤ 1114111)
  then .ok { s with pointer := s.pointer + 2 }
  else .error (.invalidChar char_code)

/-- Opcode 20, method `VM::in`.  With a non-empty buffer this is
exactly the Rust code: classify the operand, then store the dequeued
code into a register for a register reference, or into memory at the
literal address for a literal.  An empty buffer is where the Rust code
blocks on stdin; see the module comment. -/
def VM.inOp (s : VM) : Except VMErr VM :=
  match s.input_buffer with
  | [] => .error .noInput
  | code :: rest =>
    Except.bind (s.get_value (s.pointer + 1)) fun v =>
    match v with
    | Value.Number addr =>
      Except.bind (memWrite s.memory addr code) fun mem =>
      .ok { s with memory := mem, input_buffer := rest, pointer := s.pointer + 2 }
    | Value.Register r =>
      .ok { s with registers := s.registers.set r code
                 , input_buffer := rest
                 , pointer := s.pointer + 2 }

/-- Opcode 21, method `VM::noop`. -/
def VM.noop (s : VM) : Except VMErr VM :=
  .ok { s with pointer := s.pointer + 1 }

/-- One iteration of the dispatch in `VM::run`: read the word at the
instruction pointer (through `read_value`, so register references are
resolved) and dispatch on it; unknown opcodes are the Rust
unimplemented panic. -/
def VM.step (s : VM) : Except VMErr VM :=
  Except.bind s.read_value_at_pointer fun op_code =>
  match op_code with
  | 0 => s.halt
  | 1 => s.set
  | 2 => s.push
  | 3 => s.pop
  | 4 => s.eq
  | 5 => s.gt
  | 6 => s.jmp
  | 7 => s.jt
  | 8 => s.jf
  | 9 => s.add
  | 10 => s.mult
  | 11 => s.mod
  | 12 => s.and
  | 13 => s.or
  | 14 => s.not
  | 15 => s.rmem
  | 16 => s.wmem
  | 17 => s.call
  | 18 => s.ret
  | 19 => s.out
  | 20 => s.inOp
  | 21 => s.noop
  | op => .error (.unimplemented op)

/-- Method `VM::run`, fuel-indexed: while the resolved word at the
pointer is non-zero, dispatch and continue. -/
def VM.run : Nat → VM → Except VMErr VM
  | 0, _ => .error .outOfFuel
  | fuel + 1, s =>
    match s.read_value_at_pointer with
    | .error e => .error e
    | .ok 0 => .ok s
    | .ok (_ + 1) => Except.bind s.step (VM.run fuel)

/-- Function `read_binary` of `main.rs`: pair consecutive bytes into
little-endian 16-bit words, dropping a trailing odd byte. -/
def read_binary : List Nat → List Nat
  | low_byte :: high_byte :: rest =>
    ((high_byte <<< 8) ||| low_byte) :: read_binary rest
  | _ => []

/-- Range invariant of the register file. -/
abbrev regs_ok (s : VM) : Prop := ∀ x ∈ s.registers, x < 32768

/-- Range condition on the stack contents. -/
abbrev stack_ok (s : VM) : Prop := ∀ x ∈ s.stack, x < 32768

/-- Range condition on the pending input codes. -/
abbrev input_ok (s : VM) : Prop := ∀ x ∈ s.input_buffer, x < 32768

/-! Basic lemmas about the building blocks. -/

@[simp] lemma ok_bind {α β : Type} (a : α) (f : α → Except VMErr β) :
    Except.bind (.ok a) f = f a := rfl

@[simp] lemma error_bind {α β : Type} (e : VMErr) (f : α → Except VMErr β) :
    Except.bind (.error e : Except VMErr α) f = (.error e : Except VMErr β) := rfl

lemma modulo_lt (n : Nat) : modulo n < 32768 := Nat.mod_lt _ (by norm_num)

lemma getD_lt_of_forall {l : List Nat} (h : ∀ x ∈ l, x < 32768) (r : Nat) :
    l.getD r 0 < 32768 := by
  induction l generalizing r with
  | nil => simp [List.getD]
  | cons a t ih =>
    cases r with
    | zero => simpa using h a (List.mem_cons_self a t)
    | succ r =>
      simp only [List.getD_cons_succ]
      exact ih (fun x hx => h x (List.mem_cons_of_mem a hx)) r

lemma forall_mem_set {l : List Nat} {x : Nat} (hl : ∀ y ∈ l, y < 32768)
    (hx : x < 32768) (i : Nat) : ∀ y ∈ l.set i x, y < 32768 := by
  intro y hy
  rcases List.mem_or_eq_of_mem_set hy with h | h
  · exact hl y h
  · omega

lemma get_value_number_lt {s : VM} {p n : Nat}
    (h : s.get_value p = .ok (Value.Number n)) : n < 32768 := by
  unfold VM.get_value at h
  cases hm : memRead s.memory p with
  | error e => rw [hm] at h; simp at h
  | ok v =>
    rw [hm] at h
    simp only [ok_bind] at h
    split_ifs at h with h1 h2
    · simp only [Except.ok.injEq, Value.Number.injEq] at h
      omega
    all_goals simp at h

lemma read_value_lt {s : VM} {p v : Nat} (hregs : regs_ok s)
    (h : s.read_value p = .ok v) : v < 32768 := by
  unfold VM.read_value at h
  cases hg : s.get_value p with
  | error e => rw [hg] at h; simp at h
  | ok val =>
    rw [hg] at h
    simp only [ok_bind] at h
    cases val with
    | Number n =>
      simp only [Except.ok.injEq] at h
      subst h
      exact get_value_number_lt hg
    | Register r =>
      simp only [Except.ok.injEq] at h
      subst h
      exact getD_lt_of_forall hregs r

lemma modulo_usize_not {v : Nat} (hv : v < 32768) :
    modulo (usize_not v) = 32767 - v := by
  unfold modulo usize_not
  have h64 : (2 : Nat) ^ 64 - 1 = 18446744073709551615 := by norm_num
  rw [h64]
  omega

lemma shiftLeft_or_byte {low : Nat} (high : Nat) (hl : low < 256) :
    (high <<< 8) ||| low = 256 * high + low := by
  have h8 : (2 : Nat) ^ 8 = 256 := by norm_num
  have hl8 : low < 2 ^ 8 := by rw [h8]; exact hl
  rw [Nat.shiftLeft_eq, Nat.mul_comm high (2 ^ 8), ← Nat.mul_add_lt_is_or hl8 high, h8]

/-! Lemmas showing that the halt panic can only come from the opcode-0
arm of the dispatch: no helper and no other opcode produces it. -/

lemma bind_ne_halt {α β : Type} {x : Except VMErr α} {f : α → Except VMErr β}
    (hx : x ≠ .error .halt) (hf : ∀ a, f a ≠ .error .halt) :
    Except.bind x f ≠ .error .halt := by
  cases x with
  | error e => simpa using hx
  | ok a => simpa using hf a

lemma memRead_ne_halt (m : List Nat) (a : Nat) : memRead m a ≠ .error .halt := by
  unfold memRead
  cases m[a]? <;> simp

lemma memWrite_ne_halt (m : List Nat) (a v : Nat) :
    memWrite m a v ≠ .error (.halt : VMErr) := by
  unfold memWrite
  split <;> simp

lemma get_value_ne_halt (s : VM) (p : Nat) : s.get_value p ≠ .error .halt := by
  unfold VM.get_value
  refine bind_ne_halt (memRead_ne_halt s.memory p) fun v => ?_
  split_ifs <;> simp

lemma read_value_ne_halt (s : VM) (p : Nat) : s.read_value p ≠ .error .halt := by
  unfold VM.read_value
  refine bind_ne_halt (get_value_ne_halt s p) fun v => ?_
  cases v <;> simp

lemma get_register_ne_halt (s : VM) (p : Nat) : s.get_register p ≠ .error .halt := by
  unfold VM.get_register
  refine bind_ne_halt (get_value_ne_halt s p) fun v => ?_
  cases v <;> simp

lemma set_ne_halt (s : VM) : s.set ≠ .error .halt := by
  unfold VM.set
  exact bind_ne_halt (get_register_ne_halt s _) fun _ =>
    bind_ne_halt (read_value_ne_halt s _) fun _ => by simp

lemma push_ne_halt (s : VM) : s.push ≠ .error .halt := by
  unfold VM.push
  exact bind_ne_halt (read_value_ne_halt s _) fun _ => by simp

lemma pop_ne_halt (s : VM) : s.pop ≠ .error .halt := by
  unfold VM.pop
  exact bind_ne_halt (get_register_ne_halt s _) fun _ => by
    cases s.stack <;> simp

lemma eq_ne_halt (s : VM) : s.eq ≠ .error .halt := by
  unfold VM.eq
  exact bind_ne_halt (get_register_ne_halt s _) fun _ =>
    bind_ne_halt (read_value_ne_halt s _) fun _ =>
      bind_ne_halt (read_value_ne_halt s _) fun _ => by simp

lemma gt_ne_halt (s : VM) : s.gt ≠ .error .halt := by
  unfold VM.gt
  exact bind_ne_halt (get_register_ne_halt s _) fun _ =>
    bind_ne_halt (read_value_ne_halt s _) fun _ =>
      bind_ne_halt (read_value_ne_halt s _) fun _ => by simp

lemma jmp_ne_halt (s : VM) : s.jmp ≠ .error .halt := by
  unfold VM.jmp
  exact bind_ne_halt (read_value_ne_halt s _) fun _ => by simp

lemma jt_ne_halt (s : VM) : s.jt ≠ .error .halt := by
  unfold VM.jt
  refine bind_ne_halt (read_value_ne_halt s _) fun cond => ?_
  split_ifs
  · exact bind_ne_halt (read_value_ne_halt s _) fun _ => by simp
  · simp

lemma jf_ne_halt (s : VM) : s.jf ≠ .error .halt := by
  unfold VM.jf
  refine bind_ne_halt (read_value_ne_halt s _) fun cond => ?_
  split_ifs
  · exact bind_ne_halt (read_value_ne_halt s _) fun _ => by simp
  · simp

lemma add_ne_halt (s : VM) : s.add ≠ .error .halt := by
  unfold VM.add
  exact bind_ne_halt (get_register_ne_halt s _) fun _ =>
    bind_ne_halt (read_value_ne_halt s _) fun _ =>
      bind_ne_halt (read_value_ne_halt s _) fun _ => by simp

lemma mult_ne_halt (s : VM) : s.mult ≠ .error .halt := by
  unfold VM.mult
  exact bind_ne_halt (get_register_ne_halt s _) fun _ =>
    bind_ne_halt (read_value_ne_halt s _) fun _ =>
      bind_ne_halt (read_value_ne_halt s _) fun _ => by simp

lemma mod_ne_halt (s : VM) : s.mod ≠ .error .halt := by
  unfold VM.mod
  refine bind_ne_halt (get_register_ne_halt s _) fun _ => ?_
  refine bind_ne_halt (read_value_ne_halt s _) fun _ => ?_
  refine bind_ne_halt (read_value_ne_halt s _) fun b => ?_
  split_ifs <;> simp

lemma and_ne_halt (s : VM) : s.and ≠ .error .halt := by
  unfold VM.and
  exact bind_ne_halt (get_register_ne_halt s _) fun _ =>
    bind_ne_halt (read_value_ne_halt s _) fun _ =>
      bind_ne_halt (read_value_ne_halt s _) fun _ => by simp

lemma or_ne_halt (s : VM) : s.or ≠ .error .halt := by
  unfold VM.or
  exact bind_ne_halt (get_register_ne_halt s _) fun _ =>
    bind_ne_halt (read_value_ne_halt s _) fun _ =>
      bind_ne_halt (read_value_ne_halt s _) fun _ => by simp

lemma not_ne_halt (s : VM) : s.not ≠ .error .halt := by
  unfold VM.not
  exact bind_ne_halt (get_register_ne_halt s _) fun _ =>
    bind_ne_halt (read_value_ne_halt s _) fun _ => by simp

lemma rmem_ne_halt (s : VM) : s.rmem ≠ .error .halt := by
  unfold VM.rmem
  exact bind_ne_halt (get_register_ne_halt s _) fun _ =>
    bind_ne_halt (read_value_ne_halt s _) fun _ =>
      bind_ne_halt (read_value_ne_halt s _) fun _ => by simp

lemma wmem_ne_halt (s : VM) : s.wmem ≠ .error .halt := by
  unfold VM.wmem
  exact bind_ne_halt (read_value_ne_halt s _) fun _ =>
    bind_ne_halt (read_value_ne_halt s _) fun _ =>
      bind_ne_halt (memWrite_ne_halt s.memory _ _) fun _ => by simp

lemma call_ne_halt (s : VM) : s.call ≠ .error .halt := by
  unfold VM.call
  exact bind_ne_halt (read_value_ne_halt s _) fun _ => by simp

lemma ret_ne_halt (s : VM) : s.ret ≠ .error .halt := by
  unfold VM.ret
  cases s.stack <;> simp

lemma out_ne_halt (s : VM) : s.out ≠ .error .halt := by
  unfold VM.out
  refine bind_ne_halt (read_value_ne_halt s _) fun c => ?_
  split_ifs <;> simp

lemma inOp_ne_halt (s : VM) : s.inOp ≠ .error .halt := by
  unfold VM.inOp
  cases s.input_buffer with
  | nil => simp
  | cons code rest =>
    refine bind_ne_halt (get_value_ne_halt s _) fun v => ?_
    cases v with
    | Number addr => exact bind_ne_halt (memWrite_ne_halt s.memory _ _) fun _ => by simp
    | Register r => simp

lemma noop_ne_halt (s : VM) : s.noop ≠ .error .halt := by
  unfold VM.noop
  simp

/-- The dispatch never reaches the opcode-0 arm when the resolved word
at the pointer is non-zero, so `step` cannot produce the halt panic. -/
lemma step_ne_halt {s : VM} {v : Nat} (h : s.read_value_at_pointer = .ok v)
    (hv : v ≠ 0) : s.step ≠ .error .halt := by
  unfold VM.step
  rw [h]
  simp only [ok_bind]
  split
  · omega
  · exact set_ne_halt s
  · exact push_ne_halt s
  · exact pop_ne_halt s
  · exact eq_ne_halt s
  · exact gt_ne_halt s
  · exact jmp_ne_halt s
  · exact jt_ne_halt s
  · exact jf_ne_halt s
  · exact add_ne_halt s
  · exact mult_ne_halt s
  · exact mod_ne_halt s
  · exact and_ne_halt s
  · exact or_ne_halt s
  · exact not_ne_halt s
  · exact rmem_ne_halt s
  · exact wmem_ne_halt s
  · exact call_ne_halt s
  · exact ret_ne_halt s
  · exact out_ne_halt s
  · exact inOp_ne_halt s
  · exact noop_ne_halt s
  · simp

/-! Per-opcode preservation of the register range invariant. -/

lemma regs_ok_of_eq {s s' : VM} (hr : regs_ok s)
    (h : s'.registers = s.registers) : regs_ok s' := by
  intro x hx
  exact hr x (h ▸ hx)

lemma binop_preserves_regs {s s' : VM} {g : Nat → Nat → Nat}
    (hg : ∀ a b, a < 32768 → b < 32768 → g a b < 32768)
    (hr : regs_ok s)
    (h : (Except.bind (s.get_register (s.pointer + 1)) fun register =>
          Except.bind (s.read_value (s.pointer + 2)) fun a =>
          Except.bind (s.read_value (s.pointer + 3)) fun b =>
          (.ok { s with registers := s.registers.set register (g a b)
                      , pointer := s.pointer + 4 } : Except VMErr VM)) = .ok s') :
    regs_ok s' := by
  cases h1 : s.get_register (s.pointer + 1) with
  | error e => rw [h1] at h; simp at h
  | ok reg =>
    rw [h1] at h
    simp only [ok_bind] at h
    cases h2 : s.read_value (s.pointer + 2) with
    | error e => rw [h2] at h; simp at h
    | ok a =>
      rw [h2] at h
      simp only [ok_bind] at h
      cases h3 : s.read_value (s.pointer + 3) with
      | error e => rw [h3] at h; simp at h
      | ok b =>
        rw [h3] at h
        simp only [ok_bind, Except.ok.injEq] at h
        subst h
        exact forall_mem_set hr (hg a b (read_value_lt hr h2) (read_value_lt hr h3)) reg

lemma set_preserves_regs {s s' : VM} (hr : regs_ok s)
    (h : s.set = .ok s') : regs_ok s' := by
  unfold VM.set at h
  cases h1 : s.get_register (s.pointer + 1) with
  | error e => rw [h1] at h; simp at h
  | ok reg =>
    rw [h1] at h
    simp only [ok_bind] at h
    cases h2 : s.read_value (s.pointer + 2) with
    | error e => rw [h2] at h; simp at h
    | ok value =>
      rw [h2] at h
      simp only [ok_bind, Except.ok.injEq] at h
      subst h
      exact forall_mem_set hr (read_value_lt hr h2) reg

lemma push_preserves_regs {s s' : VM} (hr : regs_ok s)
    (h : s.push = .ok s') : regs_ok s' := by
  unfold VM.push at h
  cases h1 : s.read_value (s.pointer + 1) with
  | error e => rw [h1] at h; simp at h
  | ok value =>
    rw [h1] at h
    simp only [ok_bind, Except.ok.injEq] at h
    subst h
    exact regs_ok_of_eq hr rfl

lemma pop_preserves_regs {s s' : VM} (hr : regs_ok s) (hs : stack_ok s)
    (h : s.pop = .ok s') : regs_ok s' := by
  unfold VM.pop at h
  cases h1 : s.get_register (s.pointer + 1) with
  | error e => rw [h1] at h; simp at h
  | ok reg =>
    rw [h1] at h
    simp only [ok_bind] at h
    cases hst : s.stack with
    | nil => rw [hst] at h; simp at h
    | cons value rest =>
      rw [hst] at h
      simp only [Except.ok.injEq] at h
      subst h
      have hv : value < 32768 := hs value (by rw [hst]; exact List.mem_cons_self value rest)
      exact forall_mem_set hr hv reg

lemma eq_preserves_regs {s s' : VM} (hr : regs_ok s)
    (h : s.eq = .ok s') : regs_ok s' := by
  unfold VM.eq at h
  exact binop_preserves_regs (fun a b _ _ => by split <;> norm_num) hr h

lemma gt_preserves_regs {s s' : VM} (hr : regs_ok s)
    (h : s.gt = .ok s') : regs_ok s' := by
  unfold VM.gt at h
  exact binop_preserves_regs (fun a b _ _ => by split <;> norm_num) hr h

lemma jmp_preserves_regs {s s' : VM} (hr : regs_ok s)
    (h : s.jmp = .ok s') : regs_ok s' := by
  unfold VM.jmp at h
  cases h1 : s.read_value (s.pointer + 1) with
  | error e => rw [h1] at h; simp at h
  | ok jump_to =>
    rw [h1] at h
    simp only [ok_bind, Except.ok.injEq] at h
    subst h
    exact regs_ok_of_eq hr rfl

lemma jt_preserves_regs {s s' : VM} (hr : regs_ok s)
    (h : s.jt = .ok s') : regs_ok s' := by
  unfold VM.jt at h
  cases h1 : s.read_value (s.pointer + 1) with
  | error e => rw [h1] at h; simp at h
  | ok cond =>
    rw [h1] at h
    simp only [ok_bind] at h
    split_ifs at h
    · cases h2 : s.read_value (s.pointer + 2) with
      | error e => rw [h2] at h; simp at h
      | ok jump_to =>
        rw [h2] at h
        simp only [ok_bind, Except.ok.injEq] at h
        subst h
        exact regs_ok_of_eq hr rfl
    · simp only [Except.ok.injEq] at h
      subst h
      exact regs_ok_of_eq hr rfl

lemma jf_preserves_regs {s s' : VM} (hr : regs_ok s)
    (h : s.jf = .ok s') : regs_ok s' := by
  unfold VM.jf at h
  cases h1 : s.read_value (s.pointer + 1) with
  | error e => rw [h1] at h; simp at h
  | ok cond =>
    rw [h1] at h
    simp only [ok_bind] at h
    split_ifs at h
    · cases h2 : s.read_value (s.pointer + 2) with
      | error e => rw [h2] at h; simp at h
      | ok jump_to =>
        rw [h2] at h
        simp only [ok_bind, Except.ok.injEq] at h
        subst h
        exact regs_ok_of_eq hr rfl
    · simp only [Except.ok.injEq] at h
      subst h
      exact regs_ok_of_eq hr rfl

lemma add_preserves_regs {s s' : VM} (hr : regs_ok s)
    (h : s.add = .ok s') : regs_ok s' := by
  unfold VM.add at h
  exact binop_preserves_regs (fun a b _ _ => modulo_lt _) hr h

lemma mult_preserves_regs {s s' : VM} (hr : regs_ok s)
    (h : s.mult = .ok s') : regs_ok s' := by
  unfold VM.mult at h
  exact binop_preserves_regs (fun a b _ _ => modulo_lt _) hr h

lemma mod_preserves_regs {s s' : VM} (hr : regs_ok s)
    (h : s.mod = .ok s') : regs_ok s' := by
  unfold VM.mod at h
  cases h1 : s.get_register (s.pointer + 1) with
  | error e => rw [h1] at h; simp at h
  | ok reg =>
    rw [h1] at h
    simp only [ok_bind] at h
    cases h2 : s.read_value (s.pointer + 2) with
    | error e => rw [h2] at h; simp at h
    | ok a =>
      rw [h2] at h
      simp only [ok_bind] at h
      cases h3 : s.read_value (s.pointer + 3) with
      | error e => rw [h3] at h; simp at h
      | ok b =>
        rw [h3] at h
        simp only [ok_bind] at h
        split_ifs at h with hb
        simp only [Except.ok.injEq] at h
        subst h
        have hblt : b < 32768 := read_value_lt hr h3
        refine forall_mem_set hr ?_ reg
        have := Nat.mod_lt a (show 0 < b by omega)
        omega

lemma and_preserves_regs {s s' : VM} (hr : regs_ok s)
    (h : s.and = .ok s') : regs_ok s' := by
  unfold VM.and at h
  exact binop_preserves_regs (fun a b _ _ => modulo_lt _) hr h

lemma or_preserves_regs {s s' : VM} (hr : regs_ok s)
    (h : s.or = .ok s') : regs_ok s' := by
  unfold VM.or at h
  exact binop_preserves_regs (fun a b _ _ => modulo_lt _) hr h

lemma not_preserves_regs {s s' : VM} (hr : regs_ok s)
    (h : s.not = .ok s') : regs_ok s' := by
  unfold VM.not at h
  cases h1 : s.get_register (s.pointer + 1) with
  | error e => rw [h1] at h; simp at h
  | ok reg =>
    rw [h1] at h
    simp only [ok_bind] at h
    cases h2 : s.read_value (s.pointer + 2) with
    | error e => rw [h2] at h; simp at h
    | ok a =>
      rw [h2] at h
      simp only [ok_bind, Except.ok.injEq] at h
      subst h
      exact forall_mem_set hr (modulo_lt _) reg

lemma rmem_preserves_regs {s s' : VM} (hr : regs_ok s)
    (h : s.rmem = .ok s') : regs_ok s' := by
  unfold VM.rmem at h
  cases h1 : s.get_register (s.pointer + 1) with
  | error e => rw [h1] at h; simp at h
  | ok reg =>
    rw [h1] at h
    simp only [ok_bind] at h
    cases h2 : s.read_value (s.pointer + 2) with
    | error e => rw [h2] at h; simp at h
    | ok address =>
      rw [h2] at h
      simp only [ok_bind] at h
      cases h3 : s.read_value address with
      | error e => rw [h3] at h; simp at h
      | ok value =>
        rw [h3] at h
        simp only [ok_bind, Except.ok.injEq] at h
        subst h
        exact forall_mem_set hr (read_value_lt hr h3) reg

lemma wmem_preserves_regs {s s' : VM} (hr : regs_ok s)
    (h : s.wmem = .ok s') : regs_ok s' := by
  unfold VM.wmem at h
  cases h1 : s.read_value (s.pointer + 1) with
  | error e => rw [h1] at h; simp at h
  | ok address =>
    rw [h1] at h
    simp only [ok_bind] at h
    cases h2 : s.read_value (s.pointer + 2) with
    | error e => rw [h2] at h; simp at h
    | ok value =>
      rw [h2] at h
      simp only [ok_bind] at h
      cases h3 : memWrite s.memory address value with
      | error e => rw [h3] at h; simp at h
      | ok mem =>
        rw [h3] at h
        simp only [ok_bind, Except.ok.injEq] at h
        subst h
        exact regs_ok_of_eq hr rfl

lemma call_preserves_regs {s s' : VM} (hr : regs_ok s)
    (h : s.call = .ok s') : regs_ok s' := by
  unfold VM.call at h
  cases h1 : s.read_value (s.pointer + 1) with
  | error e => rw [h1] at h; simp at h
  | ok jump_to =>
    rw [h1] at h
    simp only [ok_bind, Except.ok.injEq] at h
    subst h
    exact regs_ok_of_eq hr rfl

lemma ret_preserves_regs {s s' : VM} (hr : regs_ok s)
    (h : s.ret = .ok s') : regs_ok s' := by
  unfold VM.ret at h
  cases hst : s.stack with
  | nil => rw [hst] at h; simp at h
  | cons jump_to rest =>
    rw [hst] at h
    simp only [Except.ok.injEq] at h
    subst h
    exact regs_ok_of_eq hr rfl

lemma out_preserves_regs {s s' : VM} (hr : regs_ok s)
    (h : s.out = .ok s') : regs_ok s' := by
  unfold VM.out at h
  cases h1 : s.read_value (s.pointer + 1) with
  | error e => rw [h1] at h; simp at h
  | ok char_code =>
    rw [h1] at h
    simp only [ok_bind] at h
    split_ifs at h
    simp only [Except.ok.injEq] at h
    subst h
    exact regs_ok_of_eq hr rfl

lemma inOp_preserves_regs {s s' : VM} (hr : regs_ok s) (hi : input_ok s)
    (h : s.inOp = .ok s') : regs_ok s' := by
  unfold VM.inOp at h
  cases hb : s.input_buffer with
  | nil => rw [hb] at h; simp at h
  | cons code rest =>
    rw [hb] at h
    cases h1 : s.get_value (s.pointer + 1) with
    | error e => rw [h1] at h; simp at h
    | ok v =>
      rw [h1] at h
      simp only [ok_bind] at h
      have hcode : code < 32768 := hi code (by rw [hb]; exact List.mem_cons_self code rest)
      cases v with
      | Number addr =>
        simp only [ok_bind] at h
        cases h2 : memWrite s.memory addr code with
        | error e => rw [h2] at h; simp at h
        | ok mem =>
          rw [h2] at h
          simp only [ok_bind, Except.ok.injEq] at h
          subst h
          exact regs_ok_of_eq hr rfl
      | Register r =>
        simp only [Except.ok.injEq] at h
        subst h
        exact forall_mem_set hr hcode r

lemma noop_preserves_regs {s s' : VM} (hr : regs_ok s)
    (h : s.noop = .ok s') : regs_ok s' := by
  unfold VM.noop at h
  simp only [Except.ok.injEq] at h
  subst h
  exact regs_ok_of_eq hr rfl

lemma memWrite_lt {m : List Nat} {addr : Nat} (v : Nat) (h : addr < m.length) :
    memWrite m addr v = .ok (m.set addr v) := by
  unfold memWrite
  rw [if_pos h]

lemma memWrite_oob {m : List Nat} {addr : Nat} (v : Nat) (h : m.length ≤ addr) :
    memWrite m addr v = .error (.indexOutOfBounds addr) := by
  unfold memWrite
  rw [if_neg (by omega)]

/-! Claim theorems. -/

/-- C1: the spec requires `rmem` to store into the destination
register the raw 16-bit word held in memory at the fetched address,
never re-resolved as a register reference.  The code however fetches
that cell with `read_value`, which re-resolves.  At the failing input
below, the word at the fetched address 3 is the register-reference
encoding 32769 and register 1 holds 5: the code stores 5 (the
referenced register contents) into register 0, not the raw word
32769. -/
theorem rmem_reresolves_register_encoded_word :
    VM.rmem ⟨[15, 32768, 3, 32769], [0, 5, 0, 0, 0, 0, 0, 0], [], 0, []⟩ =
      .ok ⟨[15, 32768, 3, 32769], [5, 5, 0, 0, 0, 0, 0, 0], [], 3, []⟩ ∧
    ([5, 5, 0, 0, 0, 0, 0, 0] : List Nat) ≠ [32769, 5, 0, 0, 0, 0, 0, 0] :=
  ⟨rfl, by decide⟩

/-- C3 counterexample: at a concrete state whose loaded image has
length 3, reading address 7 (here as the cell fetch of `rmem`) is the
fatal index-out-of-bounds panic, not a read returning 0, refuting the
zero-padding claim. -/
theorem memory_not_zero_padded_counterexample :
    VM.read_value ⟨[15, 32768, 7], [0, 0, 0, 0, 0, 0, 0, 0], [], 0, []⟩ 7 =
      .error (.indexOutOfBounds 7) ∧
    VM.rmem ⟨[15, 32768, 7], [0, 0, 0, 0, 0, 0, 0, 0], [], 0, []⟩ =
      .error (.indexOutOfBounds 7) :=
  ⟨rfl, rfl⟩

/-- C3 amended: for every address at or past the end of the loaded
image, reading memory is the fatal index-out-of-bounds panic rather
than a zero read; in particular `rmem` whose fetched address lies past
the image aborts with that panic. -/
theorem memory_read_past_image_is_fatal :
    (∀ (s : VM) (a : Nat), s.memory.length ≤ a →
      s.read_value a = .error (.indexOutOfBounds a)) ∧
    (∀ (s : VM) (reg addr : Nat), s.get_register (s.pointer + 1) = .ok reg →
      s.read_value (s.pointer + 2) = .ok addr → s.memory.length ≤ addr →
      s.rmem = .error (.indexOutOfBounds addr)) := by
  have h1 : ∀ (s : VM) (a : Nat), s.memory.length ≤ a →
      s.read_value a = .error (.indexOutOfBounds a) := by
    intro s a ha
    unfold VM.read_value VM.get_value memRead
    rw [List.getElem?_eq_none ha]
    rfl
  refine ⟨h1, ?_⟩
  intro s reg addr hreg haddr hlen
  unfold VM.rmem
  rw [hreg]
  simp only [ok_bind]
  rw [haddr]
  simp only [ok_bind]
  rw [h1 s addr hlen]
  rfl

/-- C3 witness: the amended statement evaluated at concrete states. -/
theorem memory_read_past_image_is_fatal_witness :
    VM.read_value ⟨[1, 2], [0, 0, 0, 0, 0, 0, 0, 0], [], 0, []⟩ 5 =
      .error (.indexOutOfBounds 5) ∧
    VM.rmem ⟨[15, 32768, 9], [0, 0, 0, 0, 0, 0, 0, 0], [], 0, []⟩ =
      .error (.indexOutOfBounds 9) :=
  ⟨memory_read_past_image_is_fatal.1 _ 5 (by decide),
   memory_read_past_image_is_fatal.2 _ 0 9 rfl rfl (by decide)⟩

/-- C6: popping with an empty stack (for `pop` and `ret` alike) is the
fatal stack-underflow panic; with a non-empty stack, `pop` stores the
popped word into the destination register and advances the pointer by
2, and `ret` sets the pointer to the popped word. -/
theorem pop_ret_stack_discipline :
    (∀ (s : VM) (reg : Nat), s.get_register (s.pointer + 1) = .ok reg →
      s.stack = [] → s.pop = .error .stackUnderflow) ∧
    (∀ s : VM, s.stack = [] → s.ret = .error .stackUnderflow) ∧
    (∀ (s : VM) (reg v : Nat) (rest : List Nat),
      s.get_register (s.pointer + 1) = .ok reg → s.stack = v :: rest →
      s.pop = .ok { s with registers := s.registers.set reg v
                         , stack := rest, pointer := s.pointer + 2 }) ∧
    (∀ (s : VM) (v : Nat) (rest : List Nat), s.stack = v :: rest →
      s.ret = .ok { s with stack := rest, pointer := v }) := by
  refine ⟨?_, ?_, ?_, ?_⟩
  · intro s reg hreg hst
    unfold VM.pop
    rw [hreg]
    simp only [ok_bind]
    rw [hst]
  · intro s hst
    unfold VM.ret
    rw [hst]
  · intro s reg v rest hreg hst
    unfold VM.pop
    rw [hreg]
    simp only [ok_bind]
    rw [hst]
  · intro s v rest hst
    unfold VM.ret
    rw [hst]

/-- C6 witness: the four cases evaluated at concrete states. -/
theorem pop_ret_stack_discipline_witness :
    VM.pop ⟨[3, 32768], [0, 0, 0, 0, 0, 0, 0, 0], [], 0, []⟩ = .error .stackUnderflow ∧
    VM.ret ⟨[18], [0, 0, 0, 0, 0, 0, 0, 0], [], 0, []⟩ = .error .stackUnderflow ∧
    VM.pop ⟨[3, 32768], [0, 0, 0, 0, 0, 0, 0, 0], [9, 4], 0, []⟩ =
      .ok ⟨[3, 32768], [9, 0, 0, 0, 0, 0, 0, 0], [4], 2, []⟩ ∧
    VM.ret ⟨[18], [0, 0, 0, 0, 0, 0, 0, 0], [7], 0, []⟩ =
      .ok ⟨[18], [0, 0, 0, 0, 0, 0, 0, 0], [], 7, []⟩ :=
  ⟨pop_ret_stack_discipline.1 _ 0 rfl rfl,
   pop_ret_stack_discipline.2.1 _ rfl,
   pop_ret_stack_discipline.2.2.1 _ 0 9 [4] rfl rfl,
   pop_ret_stack_discipline.2.2.2 _ 7 [] rfl⟩

/-- C7: for operand values below 32768, `mult` stores the product
reduced modulo 32768 (the product is formed in full width first, so no
overflow corrupts it); in particular 32767 times 32767 reduces to 1. -/
theorem mult_stores_product_mod_32768 :
    (∀ (s : VM) (reg a b : Nat),
      s.get_register (s.pointer + 1) = .ok reg →
      s.read_value (s.pointer + 2) = .ok a →
      s.read_value (s.pointer + 3) = .ok b →
      a < 32768 → b < 32768 →
      s.mult = .ok { s with registers := s.registers.set reg ((a * b) % 32768)
                          , pointer := s.pointer + 4 }) ∧
    modulo (32767 * 32767) = 1 := by
  refine ⟨?_, rfl⟩
  intro s reg a b hreg ha hb h1 h2
  unfold VM.mult
  rw [hreg]
  simp only [ok_bind]
  rw [ha]
  simp only [ok_bind]
  rw [hb]
  simp only [ok_bind]
  rfl

/-- C7 witness: a concrete `mult` execution. -/
theorem mult_stores_product_mod_32768_witness :
    VM.mult ⟨[10, 32768, 5, 7], [0, 0, 0, 0, 0, 0, 0, 0], [], 0, []⟩ =
      .ok ⟨[10, 32768, 5, 7], [35, 0, 0, 0, 0, 0, 0, 0], [], 4, []⟩ :=
  mult_stores_product_mod_32768.1 _ 0 5 7 rfl rfl rfl (by decide) (by decide)

/-- C8: for an operand value below 32768, `not` stores the 15-bit
masked bitwise complement, which equals `32767 - v`; masking the
64-bit complement with `0x7FFF` gives the same value, and the
endpoints evaluate to `not 0 = 32767` and `not 32767 = 0`. -/
theorem not_stores_masked_complement :
    (∀ (s : VM) (reg v : Nat),
      s.get_register (s.pointer + 1) = .ok reg →
      s.read_value (s.pointer + 2) = .ok v →
      v < 32768 →
      s.not = .ok { s with registers := s.registers.set reg (32767 - v)
                         , pointer := s.pointer + 3 }) ∧
    (∀ v : Nat, v < 32768 → usize_not v &&& 32767 = 32767 - v) ∧
    modulo (usize_not 0) = 32767 ∧
    modulo (usize_not 32767) = 0 := by
  have hmask : ∀ v : Nat, v < 32768 → usize_not v &&& 32767 = 32767 - v := by
    intro v hv
    have h15 : (32767 : Nat) = 2 ^ 15 - 1 := by norm_num
    rw [h15, Nat.and_pow_two_sub_one_eq_mod]
    have hmod : usize_not v % 2 ^ 15 = modulo (usize_not v) := by norm_num [modulo]
    rw [hmod, modulo_usize_not hv]
    norm_num
  refine ⟨?_, hmask, rfl, rfl⟩
  intro s reg v hreg hv hlt
  unfold VM.not
  rw [hreg]
  simp only [ok_bind]
  rw [hv]
  simp only [ok_bind]
  rw [modulo_usize_not hlt]

/-- C8 witness: a concrete `not` execution and mask evaluation. -/
theorem not_stores_masked_complement_witness :
    VM.not ⟨[14, 32768, 100], [0, 0, 0, 0, 0, 0, 0, 0], [], 0, []⟩ =
      .ok ⟨[14, 32768, 100], [32667, 0, 0, 0, 0, 0, 0, 0], [], 3, []⟩ ∧
    usize_not 100 &&& 32767 = 32667 :=
  ⟨not_stores_masked_complement.1 _ 0 100 rfl rfl (by decide),
   not_stores_masked_complement.2.1 100 (by decide)⟩

/-- C9: the loader pairs consecutive bytes as little-endian 16-bit
words (low byte first), drops a trailing odd byte, and turns the byte
pair 0x12, 0x34 into the word 0x3412. -/
theorem read_binary_little_endian :
    (∀ (low high : Nat) (rest : List Nat), low < 256 → high < 256 →
      read_binary (low :: high :: rest) = (256 * high + low) :: read_binary rest) ∧
    (∀ b : Nat, read_binary [b] = []) ∧
    read_binary [0x12, 0x34] = [0x3412] := by
  refine ⟨?_, fun b => rfl, rfl⟩
  intro low high rest hl hh
  show ((high <<< 8) ||| low) :: read_binary rest = (256 * high + low) :: read_binary rest
  rw [shiftLeft_or_byte high hl]

/-- C9 witness: the pairing equation evaluated on concrete bytes. -/
theorem read_binary_little_endian_witness :
    read_binary [18, 52, 1, 1] = 13330 :: read_binary [1, 1] ∧
    read_binary [9] = [] :=
  ⟨read_binary_little_endian.1 18 52 [1, 1] (by decide) (by decide),
   read_binary_little_endian.2.1 9⟩

/-- C2 counterexample: executing `in` whose operand word is the
literal 5 is not a fatal error; the dequeued code 65 is stored into
memory at address 5 and the pointer advances, refuting the claim that
a literal operand aborts the interpreter. -/
theorem in_literal_operand_counterexample :
    VM.step ⟨[20, 5, 0, 0, 0, 0], [0, 0, 0, 0, 0, 0, 0, 0], [], 0, [65]⟩ =
      .ok ⟨[20, 5, 0, 0, 0, 65], [0, 0, 0, 0, 0, 0, 0, 0], [], 2, []⟩ := rfl

/-- C2 amended: with a pending input code, `in` stores the dequeued
code into the named register when the operand classifies as a register
reference; an operand that classifies as a literal is not fatal: it is
interpreted as a memory address and the code is stored into memory
there, the interpreter aborting only when that address lies past the
image. -/
theorem in_destination_behaviour :
    (∀ (s : VM) (code : Nat) (rest : List Nat) (r : Nat),
      s.input_buffer = code :: rest →
      s.get_value (s.pointer + 1) = .ok (Value.Register r) →
      s.inOp = .ok { s with registers := s.registers.set r code
                          , input_buffer := rest, pointer := s.pointer + 2 }) ∧
    (∀ (s : VM) (code : Nat) (rest : List Nat) (addr : Nat),
      s.input_buffer = code :: rest →
      s.get_value (s.pointer + 1) = .ok (Value.Number addr) →
      addr < s.memory.length →
      s.inOp = .ok { s with memory := s.memory.set addr code
                          , input_buffer := rest, pointer := s.pointer + 2 }) ∧
    (∀ (s : VM) (code : Nat) (rest : List Nat) (addr : Nat),
      s.input_buffer = code :: rest →
      s.get_value (s.pointer + 1) = .ok (Value.Number addr) →
      s.memory.length ≤ addr →
      s.inOp = .error (.indexOutOfBounds addr)) := by
  refine ⟨?_, ?_, ?_⟩
  · intro s code rest r hb hv
    unfold VM.inOp
    rw [hb]
    simp only [hv, ok_bind]
  · intro s code rest addr hb hv hlen
    unfold VM.inOp
    rw [hb]
    simp only [hv, ok_bind]
    rw [memWrite_lt code hlen]
    simp only [ok_bind]
  · intro s code rest addr hb hv hlen
    unfold VM.inOp
    rw [hb]
    simp only [hv, ok_bind]
    rw [memWrite_oob code hlen]
    rfl

/-- C2 witness: the three cases evaluated at concrete states. -/
theorem in_destination_behaviour_witness :
    VM.inOp ⟨[20, 32768], [0, 0, 0, 0, 0, 0, 0, 0], [], 0, [65]⟩ =
      .ok ⟨[20, 32768], [65, 0, 0, 0, 0, 0, 0, 0], [], 2, []⟩ ∧
    VM.inOp ⟨[20, 3, 0, 0], [0, 0, 0, 0, 0, 0, 0, 0], [], 0, [66]⟩ =
      .ok ⟨[20, 3, 0, 66], [0, 0, 0, 0, 0, 0, 0, 0], [], 2, []⟩ ∧
    VM.inOp ⟨[20, 9], [0, 0, 0, 0, 0, 0, 0, 0], [], 0, [67]⟩ =
      .error (.indexOutOfBounds 9) :=
  ⟨in_destination_behaviour.1 _ 65 [] 0 rfl rfl,
   in_destination_behaviour.2.1 _ 66 [] 3 rfl rfl (by decide),
   in_destination_behaviour.2.2 _ 67 [] 9 rfl rfl (by decide)⟩

/-- C4 counterexample: executing `in` with pending input code 40000
(the Rust code collects raw char codes from stdin without reduction)
stores 40000 into register 0, so the register range bound fails right
after a successfully executed instruction. -/
theorem register_range_counterexample :
    VM.step ⟨[20, 32768], [0, 0, 0, 0, 0, 0, 0, 0], [], 0, [40000]⟩ =
      .ok ⟨[20, 32768], [40000, 0, 0, 0, 0, 0, 0, 0], [], 2, []⟩ ∧
    ¬ (40000 : Nat) < 32768 :=
  ⟨rfl, by decide⟩

/-- C4 amended: one successfully executed instruction preserves the
register range invariant provided every word on the stack and every
pending input code is itself below 32768; without those side
conditions the invariant fails, because `in` stores the dequeued code
unreduced and `pop` restores any stacked word (which `call` may have
pushed as a return address at or above 32768).  All other opcodes
preserve the bound unconditionally. -/
theorem step_preserves_register_range (s s' : VM)
    (hr : regs_ok s) (hs : stack_ok s) (hi : input_ok s)
    (h : s.step = .ok s') : regs_ok s' := by
  unfold VM.step at h
  cases hrv : s.read_value_at_pointer with
  | error e => rw [hrv] at h; simp at h
  | ok op =>
    rw [hrv] at h
    simp only [ok_bind] at h
    split at h
    · simp [VM.halt] at h
    · exact set_preserves_regs hr h
    · exact push_preserves_regs hr h
    · exact pop_preserves_regs hr hs h
    · exact eq_preserves_regs hr h
    · exact gt_preserves_regs hr h
    · exact jmp_preserves_regs hr h
    · exact jt_preserves_regs hr h
    · exact jf_preserves_regs hr h
    · exact add_preserves_regs hr h
    · exact mult_preserves_regs hr h
    · exact mod_preserves_regs hr h
    · exact and_preserves_regs hr h
    · exact or_preserves_regs hr h
    · exact not_preserves_regs hr h
    · exact rmem_preserves_regs hr h
    · exact wmem_preserves_regs hr h
    · exact call_preserves_regs hr h
    · exact ret_preserves_regs hr h
    · exact out_preserves_regs hr h
    · exact inOp_preserves_regs hr hi h
    · exact noop_preserves_regs hr h
    · simp at h

/-- C4 witness: the amended preservation applied to a concrete `set`
execution starting from in-range registers. -/
theorem step_preserves_register_range_witness :
    regs_ok ⟨[1, 32768, 7], [7, 0, 0, 0, 0, 0, 0, 0], [], 3, []⟩ :=
  step_preserves_register_range ⟨[1, 32768, 7], [0, 0, 0, 0, 0, 0, 0, 0], [], 0, []⟩ _
    (by decide) (by decide) (by decide) rfl

/-- C5: when the word read at the instruction pointer is 0, the loop
returns the final machine state without raising any error; for every
non-zero read word it dispatches one step and continues.  The zero
path never goes through the aborting opcode-0 arm. -/
theorem run_halts_cleanly_on_zero :
    (∀ (fuel : Nat) (s : VM), s.read_value_at_pointer = .ok 0 →
      VM.run (fuel + 1) s = .ok s) ∧
    (∀ (fuel : Nat) (s : VM) (v : Nat), s.read_value_at_pointer = .ok v →
      v ≠ 0 → VM.run (fuel + 1) s = Except.bind s.step (VM.run fuel)) := by
  constructor
  · intro fuel s h
    unfold VM.run
    rw [h]
  · intro fuel s v h hv
    obtain ⟨w, rfl⟩ := Nat.exists_eq_succ_of_ne_zero hv
    unfold VM.run
    rw [h]

/-- C5 witness: a halting run and a dispatching run at concrete
states. -/
theorem run_halts_cleanly_on_zero_witness :
    VM.run 1 ⟨[0], [0, 0, 0, 0, 0, 0, 0, 0], [], 0, []⟩ =
      .ok ⟨[0], [0, 0, 0, 0, 0, 0, 0, 0], [], 0, []⟩ ∧
    VM.run 2 ⟨[21, 0], [0, 0, 0, 0, 0, 0, 0, 0], [], 0, []⟩ =
      Except.bind (VM.step ⟨[21, 0], [0, 0, 0, 0, 0, 0, 0, 0], [], 0, []⟩) (VM.run 1) :=
  ⟨run_halts_cleanly_on_zero.1 0 _ rfl,
   run_halts_cleanly_on_zero.2 1 _ 21 rfl (by decide)⟩

/-- C10: the halt test of the loop resolves operand encodings: when
the raw stored word at the pointer is the register reference 32768 + r
and register r currently holds 0, the loop terminates normally even
though the raw word is non-zero; and no run ever produces the halt
panic, so the dedicated opcode-0 dispatch arm is never reached. -/
theorem run_halt_test_resolves_registers :
    (∀ (fuel : Nat) (s : VM) (r : Nat),
      memRead s.memory s.pointer = .ok (32768 + r) → r < 8 →
      s.registers.getD r 0 = 0 → VM.run (fuel + 1) s = .ok s) ∧
    (∀ (fuel : Nat) (s : VM), VM.run fuel s ≠ .error VMErr.halt) := by
  constructor
  · intro fuel s r hm hr8 hreg
    have hread : s.read_value_at_pointer = .ok 0 := by
      unfold VM.read_value_at_pointer VM.read_value VM.get_value
      rw [hm]
      simp only [ok_bind]
      rw [if_neg (by omega), if_pos (by omega)]
      simp only [ok_bind]
      have hmod : modulo (32768 + r) = r := by unfold modulo; omega
      rw [hmod, hreg]
    unfold VM.run
    rw [hread]
  · intro fuel
    induction fuel with
    | zero => intro s; simp [VM.run]
    | succ n ih =>
      intro s
      unfold VM.run
      cases hrv : s.read_value_at_pointer with
      | error e =>
        have hne := read_value_ne_halt s s.pointer
        unfold VM.read_value_at_pointer at hrv
        rw [hrv] at hne
        simpa using hne
      | ok v =>
        cases v with
        | zero => simp
        | succ w =>
          show Except.bind s.step (VM.run n) ≠ .error .halt
          refine bind_ne_halt ?_ fun s2 => ih s2
          exact step_ne_halt hrv (by omega)

/-- C10 witness: a run that halts through a register reference whose
register holds 0, and the absence of the halt panic at a concrete
run. -/
theorem run_halt_test_resolves_registers_witness :
    VM.run 1 ⟨[32770], [0, 0, 0, 0, 0, 0, 0, 0], [], 0, []⟩ =
      .ok ⟨[32770], [0, 0, 0, 0, 0, 0, 0, 0], [], 0, []⟩ ∧
    VM.run 3 ⟨[32770], [0, 0, 0, 0, 0, 0, 0, 0], [], 0, []⟩ ≠ .error VMErr.halt :=
  ⟨run_halt_test_resolves_registers.1 0 _ 2 rfl (by decide) rfl,
   run_halt_test_resolves_registers.2 3 _⟩

end Synacor
